import Mathlib

/-!
Verification of the Ideas Hub scoring, classification, similarity and
clustering engine (`app/backend/ideas/{scoring,clustering,service}.py`).

Python floats are modelled as exact rationals (`ℚ`) except where the code
takes a square root (`** 0.5` in the cosine similarity), which is modelled
over the reals with `Real.sqrt`.  Python dictionaries of optional KPI
fields are modelled as structures of `Option` fields, and the external
collaborators (scikit-learn's KMeans/silhouette, the Azure AI Search
client, the Cosmos DB container, the embedding generator) are modelled as
explicit environment records whose calls may fail (`Except Unit`).
-/

namespace IdeasHub

/-! ### Scoring (`scoring.py`) -/

/-- A KPI-estimate dictionary.  Each field is optional: a `none` models the
key being absent from the dict (absence is not zero). -/
structure KpiEstimates where
  timeSavingsHours : Option ℚ := none
  costReductionEur : Option ℚ := none
  qualityImprovementPercent : Option ℚ := none
  employeeSatisfactionImpact : Option ℚ := none
  scalabilityPotential : Option ℚ := none
  implementationEffortDays : Option ℚ := none
  riskLevel : Option String := none
deriving DecidableEq

/-- Models `if not kpi_estimates:` — the dictionary has none of the keys the
scorer reads.  (A dict holding only unrelated keys yields the same scores
as an empty one, since every contribution is skipped.) -/
def KpiEstimates.isEmpty (e : KpiEstimates) : Bool :=
  e.timeSavingsHours.isNone && e.costReductionEur.isNone &&
  e.qualityImprovementPercent.isNone && e.employeeSatisfactionImpact.isNone &&
  e.scalabilityPotential.isNone && e.implementationEffortDays.isNone &&
  e.riskLevel.isNone

/-- The five impact weights.  A weights dict is modelled by the values that
`weights.get(key, default)` returns for the five keys the code reads. -/
structure ImpactWeights where
  time_savings : ℚ := 1/5
  cost_reduction : ℚ := 1/4
  quality_improvement : ℚ := 1/5
  employee_satisfaction : ℚ := 3/20
  scalability : ℚ := 1/5
deriving DecidableEq

/-- The three feasibility weights, modelled like `ImpactWeights`. -/
structure FeasibilityWeights where
  implementation_effort : ℚ := 7/20
  risk_level : ℚ := 7/20
  complexity : ℚ := 3/10
deriving DecidableEq

/-- `ScoringConfig` from `scoring.py`.  The dataclass performs no
validation whatsoever on construction. -/
structure ScoringConfig where
  impact_weights : ImpactWeights := {}
  feasibility_weights : FeasibilityWeights := {}
deriving DecidableEq

/-- `DEFAULT_IMPACT_WEIGHTS` / `DEFAULT_FEASIBILITY_WEIGHTS`. -/
def ScoringConfig.default : ScoringConfig := {}

/-- Python's `round(x, 2)`.  Modelled as round-half-up to two decimals;
Python rounds exact halves to even, a difference that is invisible to every
property proved below (none of them distinguishes exact .005 ties). -/
def round2 (q : ℚ) : ℚ := (⌊q * 100 + 1/2⌋ : ℚ) / 100

/-- `IdeaScorer.normalize_value`. -/
def normalize_value (value : Option ℚ) (min_val max_val : ℚ) (invert : Bool) : ℚ :=
  match value with
  | none => 0
  | some v =>
    let clamped := max min_val (min max_val v)
    let normalized := if max_val = min_val then 50
      else ((clamped - min_val) / (max_val - min_val)) * 100
    if invert then 100 - normalized else normalized

/-- `RISK_LEVEL_SCORES.get(risk_level, 50)`. -/
def riskLevelScore (risk : String) : ℚ :=
  if risk = "low" then 100
  else if risk = "medium" then 50
  else if risk = "high" then 10
  else 50

/-- One optional-metric contribution step: the running pair is
`(weighted_sum, total_weight)`; a present value adds its normalized score
times the weight to the sum and the weight to the total. -/
def optTerm (acc : ℚ × ℚ) (value : Option ℚ) (lo hi : ℚ) (invert : Bool)
    (wgt : ℚ) : ℚ × ℚ :=
  match value with
  | none => acc
  | some v => (acc.1 + normalize_value (some v) lo hi invert * wgt, acc.2 + wgt)

/-- The risk-level contribution step of `calculate_feasibility_score`. -/
def riskTerm (acc : ℚ × ℚ) (risk : Option String) (wgt : ℚ) : ℚ × ℚ :=
  match risk with
  | none => acc
  | some r => (acc.1 + riskLevelScore r * wgt, acc.2 + wgt)

/-- The complexity contribution step of `calculate_feasibility_score`:
taken only when both `implementationEffortDays` and `riskLevel` are
present. -/
def complexityTerm (acc : ℚ × ℚ) (effort : Option ℚ) (risk : Option String)
    (wgt : ℚ) : ℚ × ℚ :=
  match effort, risk with
  | some v, some r =>
    let effort_norm := normalize_value (some v) 1 365 true
    let risk_score := riskLevelScore r
    (acc.1 + (effort_norm + risk_score) / 2 * wgt, acc.2 + wgt)
  | _, _ => acc

/-- The `(weighted_sum, total_weight)` accumulation of
`IdeaScorer.calculate_impact_score`. -/
def impactAccum (w : ImpactWeights) (kpi : KpiEstimates) : ℚ × ℚ :=
  let a1 := optTerm (0, 0) kpi.timeSavingsHours 0 500 false w.time_savings
  let a2 := optTerm a1 kpi.costReductionEur 0 500000 false w.cost_reduction
  let a3 := optTerm a2 kpi.qualityImprovementPercent 0 100 false w.quality_improvement
  let a4 := optTerm a3 kpi.employeeSatisfactionImpact (-100) 100 false w.employee_satisfaction
  optTerm a4 kpi.scalabilityPotential 0 100 false w.scalability

/-- `IdeaScorer.calculate_impact_score`. -/
def calculate_impact_score (config : ScoringConfig) (kpi : KpiEstimates) : ℚ :=
  if kpi.isEmpty then 0
  else
    let acc := impactAccum config.impact_weights kpi
    round2 (if acc.2 > 0 then acc.1 / acc.2 else 0)

/-- The `(weighted_sum, total_weight)` accumulation of
`IdeaScorer.calculate_feasibility_score`. -/
def feasibilityAccum (w : FeasibilityWeights) (kpi : KpiEstimates) : ℚ × ℚ :=
  let a1 := optTerm (0, 0) kpi.implementationEffortDays 1 365 true w.implementation_effort
  let a2 := riskTerm a1 kpi.riskLevel w.risk_level
  complexityTerm a2 kpi.implementationEffortDays kpi.riskLevel w.complexity

/-- `IdeaScorer.calculate_feasibility_score`. -/
def calculate_feasibility_score (config : ScoringConfig) (kpi : KpiEstimates) : ℚ :=
  if kpi.isEmpty then 0
  else
    let acc := feasibilityAccum config.feasibility_weights kpi
    round2 (if acc.2 > 0 then acc.1 / acc.2 else 0)

/-- `IdeaScorer.determine_recommendation_class` (returns the
`RecommendationClass.*.value` strings). -/
def determine_recommendation_class (impact_score feasibility_score : ℚ) : String :=
  if impact_score ≥ 70 ∧ feasibility_score ≥ 60 then "quick_win"
  else if impact_score ≥ 80 ∧ feasibility_score < 60 then "high_leverage"
  else if impact_score ≥ 60 ∧ feasibility_score ≥ 40 then "strategic"
  else "evaluate"

/-- Spec-side view of the classifier: an ordered rule table, first match
wins, with a default class when no rule matches. -/
def classificationRules : List ((ℚ → ℚ → Bool) × String) :=
  [ (fun i f => i ≥ 70 && f ≥ 60, "quick_win"),
    (fun i f => i ≥ 80 && f < 60, "high_leverage"),
    (fun i f => i ≥ 60 && f ≥ 40, "strategic") ]

/-- First-match evaluation of an ordered rule table. -/
def firstMatch (rules : List ((ℚ → ℚ → Bool) × String)) (i f : ℚ) : String :=
  match rules with
  | [] => "evaluate"
  | (p, c) :: rest => if p i f then c else firstMatch rest i f

/-- Spec-side view of `calculate_feasibility_score`, written as the sum of
three independent terms: effort, risk, and a complexity term that exists
if and only if both effort and risk are present. -/
def specFeasibilityScore (config : ScoringConfig) (kpi : KpiEstimates) : ℚ :=
  if kpi.isEmpty then 0
  else
    let w := config.feasibility_weights
    let bothPresent := kpi.implementationEffortDays.isSome && kpi.riskLevel.isSome
    let sE := match kpi.implementationEffortDays with
      | some v => normalize_value (some v) 1 365 true * w.implementation_effort
      | none => 0
    let wE := if kpi.implementationEffortDays.isSome then w.implementation_effort else 0
    let sR := match kpi.riskLevel with
      | some r => riskLevelScore r * w.risk_level
      | none => 0
    let wR := if kpi.riskLevel.isSome then w.risk_level else 0
    let sC := match kpi.implementationEffortDays, kpi.riskLevel with
      | some v, some r =>
        (normalize_value (some v) 1 365 true + riskLevelScore r) / 2 * w.complexity
      | _, _ => 0
    let wC := if bothPresent then w.complexity else 0
    let total := wE + wR + wC
    round2 (if total > 0 then (sE + sR + sC) / total else 0)

/-! ### Clustering (`clustering.py`) -/

/-- The three clustering parameters of `IdeaClusterer.__init__`, with their
default values. -/
structure ClustererConfig where
  min_clusters : ℕ := 3
  max_clusters : ℕ := 10
  min_ideas_per_cluster : ℕ := 3
deriving DecidableEq

/-- External scikit-learn collaborators.  `kmeans_fit_predict k embs`
models `KMeans(n_clusters=k, random_state=42, n_init=10).fit_predict`
(deterministic because of the fixed seed), and may raise;
`silhouette_score` likewise. -/
structure ClusterEnv where
  kmeans_fit_predict : ℕ → List (List ℚ) → Except Unit (List ℤ)
  silhouette_score : List (List ℚ) → List ℤ → Except Unit ℚ

/-- The candidate cluster counts `range(min_k, max_k + 1)` examined by
`_find_optimal_clusters` for `n` samples. -/
def candidateKs (cfg : ClustererConfig) (n : ℕ) : List ℕ :=
  let max_k := min cfg.max_clusters (n / cfg.min_ideas_per_cluster)
  let min_k := min cfg.min_clusters max_k
  List.range' min_k (max_k + 1 - min_k)

/-- The silhouette score the loop body of `_find_optimal_clusters` obtains
for one candidate `k`: `none` models the `except` path (either the KMeans
fit or the silhouette computation raised). -/
def silhouetteFor (env : ClusterEnv) (embs : List (List ℚ)) (k : ℕ) : Option ℚ :=
  match env.kmeans_fit_predict k embs with
  | .error _ => none
  | .ok labels =>
    match env.silhouette_score embs labels with
    | .error _ => none
    | .ok s => some s

/-- The `best_score / best_k` selection loop of `_find_optimal_clusters`:
a failed candidate is skipped, a successful one replaces the incumbent
only when its score is strictly greater. -/
def bestLoop (score : ℕ → Option ℚ) : List ℕ → ℚ × ℕ → ℚ × ℕ
  | [], best => best
  | k :: rest, best =>
    match score k with
    | none => bestLoop score rest best
    | some s => if s > best.1 then bestLoop score rest (s, k) else bestLoop score rest best

/-- `IdeaClusterer._find_optimal_clusters`. -/
def find_optimal_clusters (cfg : ClustererConfig) (env : ClusterEnv)
    (embeddings : List (List ℚ)) : ℕ :=
  let n_samples := embeddings.length
  let max_k := min cfg.max_clusters (n_samples / cfg.min_ideas_per_cluster)
  let min_k := min cfg.min_clusters max_k
  if max_k < min_k then min_k
  else (bestLoop (silhouetteFor env embeddings) (List.range' min_k (max_k + 1 - min_k)) (-1, min_k)).2

/-- `IdeaClusterer.cluster_ideas`. -/
def cluster_ideas (cfg : ClustererConfig) (env : ClusterEnv)
    (embeddings : List (List ℚ)) (n_clusters : Option ℕ) : List ℤ × ℕ :=
  if embeddings = [] then ([], 0)
  else
    let k := n_clusters.getD (find_optimal_clusters cfg env embeddings)
    match env.kmeans_fit_predict k embeddings with
    | .ok labels => (labels, k)
    | .error _ => (List.replicate embeddings.length 0, 1)

/-! ### Similarity service (`service.py`) -/

/-- One raw document returned by the Azure AI Search client (the
`@search.score` and the stored fields the code reads). -/
structure SearchResult where
  id : String
  title : String
  summary : String
  status : String
  score : ℝ

/-- One idea document stored in the Cosmos DB container. -/
structure CosmosItem where
  id : String
  title : String
  summary : String
  status : String
  embedding : List ℝ

/-- The `SimilarIdea` response model. -/
structure SimilarIdea where
  idea_id : String
  title : String
  summary : String
  similarity_score : ℝ
  status : String

/-- The `SimilarIdeasResponse` response model. -/
structure SimilarIdeasResponse where
  similar_ideas : List SimilarIdea
  threshold : ℝ

/-- The external collaborators of `IdeaService.find_similar_ideas`:
`search_client = none` models a service configured without Azure AI
Search; `some (.error ())` a search call that raises; `some (.ok rs)` a
search producing the result stream `rs`.  `ideas_container` likewise
models the Cosmos DB container (absent, raising, or yielding its items
with defined non-empty embedding, per the `WHERE` clause).  `embed`
models `generate_embedding` (`[]` on failure). -/
structure IdeasServiceEnv where
  search_client : Option (Except Unit (List SearchResult))
  ideas_container : Option (Except Unit (List CosmosItem))
  embed : List Char → List ℝ

/-- Python's `text.strip()`: a Python `str` is modelled as its list of
characters. -/
def pyStrip (s : List Char) : List Char :=
  ((s.dropWhile Char.isWhitespace).reverse.dropWhile Char.isWhitespace).reverse

/-- The guard `if exclude_id and idea_id == exclude_id:` — Python
truthiness makes both `None` and the empty string skip the exclusion. -/
def excludedBy (exclude_id : Option String) (idea_id : String) : Bool :=
  match exclude_id with
  | none => false
  | some e => !(e == "") && idea_id == e

/-- `IdeaService._cosine_similarity`'s magnitude computation,
`sum(a * a for a in vec) ** 0.5`. -/
noncomputable def magnitude (vec : List ℝ) : ℝ :=
  Real.sqrt ((vec.map (fun a => a * a)).sum)

/-- `IdeaService._cosine_similarity`. -/
noncomputable def cosine_similarity (vec1 vec2 : List ℝ) : ℝ :=
  if vec1.length ≠ vec2.length then 0
  else
    let dot_product := (List.zipWith (· * ·) vec1 vec2).sum
    if magnitude vec1 = 0 ∨ magnitude vec2 = 0 then 0
    else dot_product / (magnitude vec1 * magnitude vec2)

/-- The result-collection loop of `_search_similar_with_ai_search`:
skip results below the threshold, skip the excluded id, append otherwise,
and break as soon as `limit` results have been collected. -/
noncomputable def aiCollect (threshold : ℝ) (limit : ℕ) (exclude_id : Option String) :
    List SearchResult → List SimilarIdea → List SimilarIdea
  | [], acc => acc
  | r :: rest, acc =>
    if r.score < threshold then aiCollect threshold limit exclude_id rest acc
    else if excludedBy exclude_id r.id then aiCollect threshold limit exclude_id rest acc
    else
      let acc1 := acc ++ [⟨r.id, r.title, r.summary, r.score, r.status⟩]
      if limit ≤ acc1.length then acc1
      else aiCollect threshold limit exclude_id rest acc1

/-- `IdeaService._search_similar_with_ai_search`: an error from the search
client is re-raised to the caller. -/
noncomputable def search_similar_with_ai_search
    (outcome : Except Unit (List SearchResult)) (threshold : ℝ) (limit : ℕ)
    (exclude_id : Option String) : Except Unit (List SimilarIdea) :=
  match outcome with
  | .error e => .error e
  | .ok results => .ok (aiCollect threshold limit exclude_id results [])

/-- The per-item filter loop of `_search_similar_with_cosmos`: skip the
excluded id, skip empty embeddings, score the rest against the query
vector and keep only scores at or above the threshold. -/
noncomputable def cosmosCollect (query_embedding : List ℝ) (threshold : ℝ)
    (exclude_id : Option String) : List CosmosItem → List SimilarIdea
  | [] => []
  | it :: rest =>
    if excludedBy exclude_id it.id then cosmosCollect query_embedding threshold exclude_id rest
    else if it.embedding = [] then cosmosCollect query_embedding threshold exclude_id rest
    else
      let score := cosine_similarity query_embedding it.embedding
      if score < threshold then cosmosCollect query_embedding threshold exclude_id rest
      else ⟨it.id, it.title, it.summary, score, it.status⟩ ::
        cosmosCollect query_embedding threshold exclude_id rest

/-- Descending insertion by similarity score, modelling
`list.sort(key=lambda x: x.similarity_score, reverse=True)` (tie order is
irrelevant to every property below). -/
noncomputable def insertDesc (x : SimilarIdea) : List SimilarIdea → List SimilarIdea
  | [] => [x]
  | y :: ys => if y.similarity_score < x.similarity_score then x :: y :: ys
    else y :: insertDesc x ys

/-- Descending sort by similarity score. -/
noncomputable def sortDesc : List SimilarIdea → List SimilarIdea
  | [] => []
  | x :: xs => insertDesc x (sortDesc xs)

/-- `IdeaService._search_similar_with_cosmos`: no container or a raising
query yields `[]`; otherwise filter, sort descending and truncate. -/
noncomputable def search_similar_with_cosmos (container : Option (Except Unit (List CosmosItem)))
    (query_embedding : List ℝ) (threshold : ℝ) (limit : ℕ)
    (exclude_id : Option String) : List SimilarIdea :=
  match container with
  | none => []
  | some (.error _) => []
  | some (.ok items) =>
    (sortDesc (cosmosCollect query_embedding threshold exclude_id items)).take limit

/-- `IdeaService.find_similar_ideas`. -/
noncomputable def find_similar_ideas (env : IdeasServiceEnv) (text : List Char)
    (threshold : ℝ) (limit : ℕ) (exclude_id : Option String) : SimilarIdeasResponse :=
  if pyStrip text = [] then ⟨[], threshold⟩
  else
    let query_embedding := env.embed text
    if query_embedding = [] then ⟨[], threshold⟩
    else
      match env.search_client with
      | some outcome =>
        match search_similar_with_ai_search outcome threshold limit exclude_id with
        | .ok ideas => ⟨ideas, threshold⟩
        | .error _ =>
          ⟨search_similar_with_cosmos env.ideas_container query_embedding threshold limit exclude_id,
            threshold⟩
      | none =>
        ⟨search_similar_with_cosmos env.ideas_container query_embedding threshold limit exclude_id,
          threshold⟩

/-! ### Concrete instances used in the examples below -/

/-- A clustering environment in which every external call succeeds. -/
def trivialClusterEnv : ClusterEnv :=
  ⟨fun _ _ => .ok [], fun _ _ => .ok 0⟩

/-- A clustering environment in which every external call raises. -/
def errorClusterEnv : ClusterEnv :=
  ⟨fun _ _ => .error (), fun _ _ => .error ()⟩

/-- A clustering environment in which `KMeans(n_clusters=0)` raises (as
scikit-learn's does) and the silhouette computation always raises. -/
def zeroKFailsEnv : ClusterEnv :=
  ⟨fun k _ => if k = 0 then .error () else .ok [], fun _ _ => .error ()⟩

/-- A scoring configuration holding a negative impact weight — the
`ScoringConfig` dataclass accepts it without complaint. -/
def negTimeSavingsConfig : ScoringConfig :=
  { impact_weights := { time_savings := -(1/5) } }

/-- An estimate whose `riskLevel` is present but not one of the enum
values. -/
def unknownRiskEstimate : KpiEstimates :=
  { riskLevel := some "unknown" }

/-- A service environment whose indexed backend serves one result with
score 1. -/
def oneHitSearchEnv : IdeasServiceEnv :=
  ⟨some (.ok [⟨"a", "t", "s", "submitted", 1⟩]), none, fun _ => [1]⟩

/-- A service environment with no indexed backend and no container. -/
def emptyServiceEnv : IdeasServiceEnv :=
  ⟨none, none, fun _ => [1]⟩

/-- A service environment whose indexed backend raises on every search. -/
def raisingSearchEnv : IdeasServiceEnv :=
  ⟨some (.error ()), none, fun _ => [1]⟩

/-! ### Classification and feasibility structure -/

/-- An unrecognized risk level maps to the default score 50. -/
theorem riskLevelScore_unrecognized (s : String)
    (h1 : s ≠ "low") (h2 : s ≠ "medium") (h3 : s ≠ "high") :
    riskLevelScore s = 50 := by
  simp [riskLevelScore, h1, h2, h3]

/-- C1 counterexample: the pair `(79.9, 60)` satisfies rule 1
(`impact >= 70 and feasibility >= 60`), so the classifier returns
`quick_win`, not `strategic` as the claim asserts. -/
theorem recommendation_79_9_60_not_strategic :
    determine_recommendation_class (799/10) 60 = "quick_win" ∧
      determine_recommendation_class (799/10) 60 ≠ "strategic" := by
  have h : determine_recommendation_class (799/10) 60 = "quick_win" := by
    norm_num [determine_recommendation_class]
  exact ⟨h, by rw [h]; decide⟩

/-- C1 (amended): `determine_recommendation_class` evaluates exactly the
four ordered rules of the spec with first match winning, and on the
boundary pairs: `(80, 60) ↦ quick_win`, `(79.9, 60) ↦ quick_win` (rule 1
already matches, since `79.9 >= 70` and `60 >= 60`), and
`(80, 59.9) ↦ high_leverage`. -/
theorem recommendation_rule_table :
    (∀ i f : ℚ, determine_recommendation_class i f = firstMatch classificationRules i f) ∧
      determine_recommendation_class 80 60 = "quick_win" ∧
      determine_recommendation_class (799/10) 60 = "quick_win" ∧
      determine_recommendation_class 80 (599/10) = "high_leverage" := by
  refine ⟨fun i f => ?_, by norm_num [determine_recommendation_class],
    by norm_num [determine_recommendation_class], by norm_num [determine_recommendation_class]⟩
  simp only [determine_recommendation_class, firstMatch, classificationRules,
    Bool.and_eq_true, decide_eq_true_eq]

/-- C5: the risk table is `low=100, medium=50, high=10` with default 50,
and `calculate_feasibility_score` equals the spec-side three-term sum in
which the complexity term (the average of the inverted-normalized effort
and the risk score) exists if and only if both `implementationEffortDays`
and `riskLevel` are present. -/
theorem feasibility_risk_table_and_complexity :
    (riskLevelScore "low" = 100 ∧ riskLevelScore "medium" = 50 ∧ riskLevelScore "high" = 10) ∧
      (∀ s : String, s ≠ "low" → s ≠ "medium" → s ≠ "high" → riskLevelScore s = 50) ∧
      (∀ (config : ScoringConfig) (kpi : KpiEstimates),
        calculate_feasibility_score config kpi = specFeasibilityScore config kpi) := by
  refine ⟨⟨by decide, by decide, by decide⟩, fun s h1 h2 h3 => riskLevelScore_unrecognized s h1 h2 h3, ?_⟩
  intro config kpi
  rcases he : kpi.implementationEffortDays with _ | v <;>
    rcases hr : kpi.riskLevel with _ | r <;>
      simp [calculate_feasibility_score, specFeasibilityScore, feasibilityAccum,
        optTerm, riskTerm, complexityTerm, he, hr]

/-- C5 witness at a concrete unrecognized risk level and estimate. -/
theorem feasibility_risk_table_and_complexity_witness :
    riskLevelScore "weird" = 50 ∧
      calculate_feasibility_score {} { implementationEffortDays := some 100, riskLevel := some "low" } =
        specFeasibilityScore {} { implementationEffortDays := some 100, riskLevel := some "low" } :=
  ⟨feasibility_risk_table_and_complexity.2.1 "weird" (by decide) (by decide) (by decide),
    feasibility_risk_table_and_complexity.2.2 {} _⟩

/-- C8 counterexample: an estimate holding only an unrecognized
`riskLevel` scores 50 (the unrecognized value contributes the default risk
score with full risk weight), while removing the field yields 0 — the two
are not equal, so an unrecognized risk level is not treated as absent. -/
theorem unrecognized_risk_not_absent :
    calculate_feasibility_score {} unknownRiskEstimate = 50 ∧
      calculate_feasibility_score {} { unknownRiskEstimate with riskLevel := none } = 0 ∧
      calculate_feasibility_score {} unknownRiskEstimate ≠
        calculate_feasibility_score {} { unknownRiskEstimate with riskLevel := none } := by
  have hu : riskLevelScore "unknown" = 50 :=
    riskLevelScore_unrecognized "unknown" (by decide) (by decide) (by decide)
  have h1 : calculate_feasibility_score {} unknownRiskEstimate = 50 := by
    norm_num [calculate_feasibility_score, feasibilityAccum, optTerm, riskTerm,
      complexityTerm, unknownRiskEstimate, KpiEstimates.isEmpty, hu, round2]
  have h2 : calculate_feasibility_score {} { unknownRiskEstimate with riskLevel := none } = 0 := by
    norm_num [calculate_feasibility_score, feasibilityAccum, optTerm, riskTerm,
      complexityTerm, unknownRiskEstimate, KpiEstimates.isEmpty, riskLevelScore, round2]
  refine ⟨h1, h2, by rw [h1, h2]; norm_num⟩

/-- C8 (amended): a present but unrecognized `riskLevel` is treated
exactly like `"medium"` (it contributes the default score 50 together with
the risk weight, and participates in the complexity term): for every
estimate with an unrecognized risk level, the feasibility score equals
that of the same estimate with `riskLevel` replaced by `"medium"`. -/
theorem unrecognized_risk_scores_as_medium (config : ScoringConfig)
    (kpi : KpiEstimates) (s : String) (hrl : kpi.riskLevel = some s)
    (h1 : s ≠ "low") (h2 : s ≠ "medium") (h3 : s ≠ "high") :
    calculate_feasibility_score config kpi =
      calculate_feasibility_score config { kpi with riskLevel := some "medium" } := by
  have h50 : riskLevelScore s = 50 := riskLevelScore_unrecognized s h1 h2 h3
  have hm : riskLevelScore "medium" = 50 := by decide
  rcases he : kpi.implementationEffortDays with _ | v <;>
    simp [calculate_feasibility_score, feasibilityAccum, optTerm, riskTerm,
      complexityTerm, KpiEstimates.isEmpty, hrl, he, h50, hm]

/-- C8 witness: the amended equation at the concrete unrecognized value. -/
theorem unrecognized_risk_scores_as_medium_witness :
    calculate_feasibility_score {} unknownRiskEstimate =
      calculate_feasibility_score {} { unknownRiskEstimate with riskLevel := some "medium" } :=
  unrecognized_risk_scores_as_medium {} unknownRiskEstimate "unknown" rfl
    (by decide) (by decide) (by decide)

/-- C9 counterexample: neither alleged error condition raises.
`cluster_ideas([], 3)` returns `([], 0)` normally (the empty-input early
return fires before the requested `k` is ever looked at), and a scorer
configured with a negative weight computes a score without any validation
error (here the negative total weight fails the `total_weight > 0` test,
so the score is 0.0). -/
theorem misconfiguration_does_not_raise :
    cluster_ideas {} trivialClusterEnv [] (some 3) = ([], 0) ∧
      calculate_impact_score negTimeSavingsConfig { timeSavingsHours := some 100 } = 0 := by
  refine ⟨by decide, by norm_num [calculate_impact_score, impactAccum, optTerm,
    normalize_value, negTimeSavingsConfig, KpiEstimates.isEmpty, round2]⟩

/-- C9 (amended): the scoring and clustering components never raise:
`ScoringConfig` performs no weight validation, so negative weights are
accepted and scored with (total computed as usual), and
`cluster_ideas([], k)` returns `([], 0)` for every requested `k` and
every environment, all internal exceptions being caught. -/
theorem no_error_surfaced_for_misconfiguration :
    (∀ (cfg : ClustererConfig) (env : ClusterEnv) (nc : Option ℕ),
        cluster_ideas cfg env [] nc = ([], 0)) ∧
      calculate_impact_score negTimeSavingsConfig { timeSavingsHours := some 100 } = 0 := by
  refine ⟨fun cfg env nc => ?_, by norm_num [calculate_impact_score, impactAccum, optTerm,
    normalize_value, negTimeSavingsConfig, KpiEstimates.isEmpty, round2]⟩
  simp [cluster_ideas]

/-! ### Score bounds -/

/-- Normalization stays within the 0 to 100 scale whenever the declared
range is sensible (`lo ≤ hi`, true of every range in
`KPI_NORMALIZATION_RANGES`). -/
theorem normalize_value_bounds (v : Option ℚ) (lo hi : ℚ) (inv : Bool) (h : lo ≤ hi) :
    0 ≤ normalize_value v lo hi inv ∧ normalize_value v lo hi inv ≤ 100 := by
  rcases v with _ | x
  · simp [normalize_value]
  · simp only [normalize_value]
    by_cases heq : hi = lo
    · simp only [heq, if_true]
      cases inv <;> norm_num
    · have hlt : lo < hi := lt_of_le_of_ne h (fun hh => heq hh.symm)
      have h1 : lo ≤ max lo (min hi x) := le_max_left _ _
      have h2 : max lo (min hi x) ≤ hi := max_le h (min_le_left _ _)
      have hpos : 0 < hi - lo := by linarith
      have hr0 : 0 ≤ (max lo (min hi x) - lo) / (hi - lo) := by
        apply div_nonneg <;> linarith
      have hr1 : (max lo (min hi x) - lo) / (hi - lo) ≤ 1 := by
        rw [div_le_one hpos]; linarith
      simp only [heq, if_false]
      cases inv <;> simp only [Bool.false_eq_true, if_false, if_true] <;>
        constructor <;> nlinarith

/-- The risk table only produces values in the 0 to 100 scale. -/
theorem riskLevelScore_bounds (r : String) :
    0 ≤ riskLevelScore r ∧ riskLevelScore r ≤ 100 := by
  unfold riskLevelScore
  split_ifs <;> norm_num

/-- An `optTerm` step preserves the accumulator invariant
`0 ≤ weighted_sum ≤ 100 * total_weight` with nonnegative total. -/
theorem optTerm_inv (acc : ℚ × ℚ)
    (h : 0 ≤ acc.1 ∧ acc.1 ≤ 100 * acc.2 ∧ 0 ≤ acc.2)
    (v : Option ℚ) (lo hi : ℚ) (hlh : lo ≤ hi) (inv : Bool) (w : ℚ) (hw : 0 ≤ w) :
    0 ≤ (optTerm acc v lo hi inv w).1 ∧
      (optTerm acc v lo hi inv w).1 ≤ 100 * (optTerm acc v lo hi inv w).2 ∧
      0 ≤ (optTerm acc v lo hi inv w).2 := by
  obtain ⟨h1, h2, h3⟩ := h
  rcases v with _ | x
  · exact ⟨h1, h2, h3⟩
  · obtain ⟨hn0, hn1⟩ := normalize_value_bounds (some x) lo hi inv hlh
    simp only [optTerm]
    refine ⟨by nlinarith, by nlinarith, by nlinarith⟩

/-- A `riskTerm` step preserves the accumulator invariant. -/
theorem riskTerm_inv (acc : ℚ × ℚ)
    (h : 0 ≤ acc.1 ∧ acc.1 ≤ 100 * acc.2 ∧ 0 ≤ acc.2)
    (risk : Option String) (w : ℚ) (hw : 0 ≤ w) :
    0 ≤ (riskTerm acc risk w).1 ∧
      (riskTerm acc risk w).1 ≤ 100 * (riskTerm acc risk w).2 ∧
      0 ≤ (riskTerm acc risk w).2 := by
  obtain ⟨h1, h2, h3⟩ := h
  rcases risk with _ | r
  · exact ⟨h1, h2, h3⟩
  · obtain ⟨hr0, hr1⟩ := riskLevelScore_bounds r
    simp only [riskTerm]
    refine ⟨by nlinarith, by nlinarith, by nlinarith⟩

/-- A `complexityTerm` step preserves the accumulator invariant. -/
theorem complexityTerm_inv (acc : ℚ × ℚ)
    (h : 0 ≤ acc.1 ∧ acc.1 ≤ 100 * acc.2 ∧ 0 ≤ acc.2)
    (effort : Option ℚ) (risk : Option String) (w : ℚ) (hw : 0 ≤ w) :
    0 ≤ (complexityTerm acc effort risk w).1 ∧
      (complexityTerm acc effort risk w).1 ≤ 100 * (complexityTerm acc effort risk w).2 ∧
      0 ≤ (complexityTerm acc effort risk w).2 := by
  obtain ⟨h1, h2, h3⟩ := h
  rcases effort with _ | x
  · exact ⟨h1, h2, h3⟩
  · rcases risk with _ | r
    · exact ⟨h1, h2, h3⟩
    · obtain ⟨hn0, hn1⟩ := normalize_value_bounds (some x) 1 365 true (by norm_num)
      obtain ⟨hr0, hr1⟩ := riskLevelScore_bounds r
      simp only [complexityTerm]
      refine ⟨by nlinarith, by nlinarith, by nlinarith⟩

/-- Rounding to two decimals keeps a value inside the 0 to 100 scale. -/
theorem round2_bounds (q : ℚ) (h0 : 0 ≤ q) (h1 : q ≤ 100) :
    0 ≤ round2 q ∧ round2 q ≤ 100 := by
  constructor
  · have hz : (0:ℤ) ≤ ⌊q * 100 + 1/2⌋ := Int.floor_nonneg.mpr (by nlinarith)
    unfold round2
    have : (0:ℚ) ≤ (⌊q * 100 + 1/2⌋ : ℚ) := by exact_mod_cast hz
    linarith
  · unfold round2
    have hfl : (⌊q * 100 + 1/2⌋ : ℚ) ≤ q * 100 + 1/2 := Int.floor_le _
    have h2 : (⌊q * 100 + 1/2⌋ : ℚ) < 10001 := by linarith
    have h3 : ⌊q * 100 + 1/2⌋ < 10001 := by exact_mod_cast h2
    have h4 : (⌊q * 100 + 1/2⌋ : ℚ) ≤ 10000 := by exact_mod_cast Int.lt_add_one_iff.mp h3
    linarith

/-- The final score formed from an accumulator satisfying the invariant is
in the 0 to 100 scale. -/
theorem accum_score_bounds (acc : ℚ × ℚ)
    (h : 0 ≤ acc.1 ∧ acc.1 ≤ 100 * acc.2 ∧ 0 ≤ acc.2) :
    0 ≤ round2 (if acc.2 > 0 then acc.1 / acc.2 else 0) ∧
      round2 (if acc.2 > 0 then acc.1 / acc.2 else 0) ≤ 100 := by
  obtain ⟨h1, h2, h3⟩ := h
  have hq : 0 ≤ (if acc.2 > 0 then acc.1 / acc.2 else 0) ∧
      (if acc.2 > 0 then acc.1 / acc.2 else 0) ≤ 100 := by
    split_ifs with hpos
    · constructor
      · positivity
      · rw [div_le_iff₀ hpos]; linarith
    · norm_num
  exact round2_bounds _ hq.1 hq.2

/-- C2: for every KPI-estimate dictionary (any combination of present and
absent fields, any values) and every configuration with non-negative
weights, the impact and feasibility scores both lie between 0 and 100. -/
theorem scores_within_bounds (config : ScoringConfig) (kpi : KpiEstimates)
    (hts : 0 ≤ config.impact_weights.time_savings)
    (hcr : 0 ≤ config.impact_weights.cost_reduction)
    (hqi : 0 ≤ config.impact_weights.quality_improvement)
    (hes : 0 ≤ config.impact_weights.employee_satisfaction)
    (hsc : 0 ≤ config.impact_weights.scalability)
    (hie : 0 ≤ config.feasibility_weights.implementation_effort)
    (hrk : 0 ≤ config.feasibility_weights.risk_level)
    (hcx : 0 ≤ config.feasibility_weights.complexity) :
    (0 ≤ calculate_impact_score config kpi ∧ calculate_impact_score config kpi ≤ 100) ∧
      (0 ≤ calculate_feasibility_score config kpi ∧
        calculate_feasibility_score config kpi ≤ 100) := by
  have hinit : (0:ℚ) ≤ ((0:ℚ), (0:ℚ)).1 ∧ ((0:ℚ), (0:ℚ)).1 ≤ 100 * ((0:ℚ), (0:ℚ)).2 ∧
      (0:ℚ) ≤ ((0:ℚ), (0:ℚ)).2 := by norm_num
  constructor
  · by_cases hemp : kpi.isEmpty
    · simp [calculate_impact_score, hemp]
    · have i1 := optTerm_inv _ hinit kpi.timeSavingsHours 0 500 (by norm_num) false _ hts
      have i2 := optTerm_inv _ i1 kpi.costReductionEur 0 500000 (by norm_num) false _ hcr
      have i3 := optTerm_inv _ i2 kpi.qualityImprovementPercent 0 100 (by norm_num) false _ hqi
      have i4 := optTerm_inv _ i3 kpi.employeeSatisfactionImpact (-100) 100 (by norm_num) false _ hes
      have i5 := optTerm_inv _ i4 kpi.scalabilityPotential 0 100 (by norm_num) false _ hsc
      have hb := accum_score_bounds _ i5
      simpa [calculate_impact_score, hemp, impactAccum] using hb
  · by_cases hemp : kpi.isEmpty
    · simp [calculate_feasibility_score, hemp]
    · have j1 := optTerm_inv _ hinit kpi.implementationEffortDays 1 365 (by norm_num) true _ hie
      have j2 := riskTerm_inv _ j1 kpi.riskLevel _ hrk
      have j3 := complexityTerm_inv _ j2 kpi.implementationEffortDays kpi.riskLevel _ hcx
      have hb := accum_score_bounds _ j3
      simpa [calculate_feasibility_score, hemp, feasibilityAccum] using hb

/-- C2 witness at a concrete estimate holding out-of-range values and an
unrecognized risk level, scored with the default weights. -/
theorem scores_within_bounds_witness :
    (0 ≤ calculate_impact_score {}
        { timeSavingsHours := some 100000, employeeSatisfactionImpact := some (-500),
          implementationEffortDays := some 0, riskLevel := some "zzz" } ∧
      calculate_impact_score {}
        { timeSavingsHours := some 100000, employeeSatisfactionImpact := some (-500),
          implementationEffortDays := some 0, riskLevel := some "zzz" } ≤ 100) ∧
      (0 ≤ calculate_feasibility_score {}
        { timeSavingsHours := some 100000, employeeSatisfactionImpact := some (-500),
          implementationEffortDays := some 0, riskLevel := some "zzz" } ∧
      calculate_feasibility_score {}
        { timeSavingsHours := some 100000, employeeSatisfactionImpact := some (-500),
          implementationEffortDays := some 0, riskLevel := some "zzz" } ≤ 100) :=
  scores_within_bounds {} _ (by norm_num) (by norm_num) (by norm_num) (by norm_num)
    (by norm_num) (by norm_num) (by norm_num) (by norm_num)

/-! ### Cosine similarity -/

/-- Pointwise products are symmetric in the two vectors. -/
theorem zipWith_mul_comm (a b : List ℝ) :
    List.zipWith (· * ·) a b = List.zipWith (· * ·) b a := by
  induction a generalizing b with
  | nil => cases b <;> simp
  | cons x xs ih =>
    cases b with
    | nil => simp
    | cons y ys => simp [mul_comm, ih]

/-- The dot product of a vector with itself is its sum of squares. -/
theorem zipWith_mul_self (a : List ℝ) :
    List.zipWith (· * ·) a a = a.map (fun x => x * x) := by
  induction a with
  | nil => simp
  | cons x xs ih => simp [ih]

/-- A sum of squares is nonnegative. -/
theorem sum_squares_nonneg (a : List ℝ) : 0 ≤ (a.map (fun x => x * x)).sum := by
  induction a with
  | nil => simp
  | cons x xs ih =>
    simp only [List.map_cons, List.sum_cons]
    nlinarith [mul_self_nonneg x]

/-- A vector with a nonzero component has a positive sum of squares. -/
theorem sum_squares_pos (a : List ℝ) (h : ∃ x ∈ a, x ≠ 0) :
    0 < (a.map (fun x => x * x)).sum := by
  obtain ⟨x, hx, hne⟩ := h
  have h1 : ∀ y ∈ a.map (fun z => z * z), 0 ≤ y := by
    intro y hy
    simp only [List.mem_map] at hy
    obtain ⟨z, _, rfl⟩ := hy
    exact mul_self_nonneg z
  have h2 : (x * x) ∈ a.map (fun z => z * z) := List.mem_map_of_mem _ hx
  exact lt_of_lt_of_le (mul_self_pos.mpr hne) (List.single_le_sum h1 _ h2)

/-- A vector with a nonzero component has positive magnitude. -/
theorem magnitude_pos (a : List ℝ) (h : ∃ x ∈ a, x ≠ 0) : 0 < magnitude a :=
  Real.sqrt_pos.mpr (sum_squares_pos a h)

/-- C6: `_cosine_similarity` is total and satisfies the claimed algebra —
it is symmetric, equals 1 on any nonzero vector paired with itself, and
returns 0 (rather than raising) on mismatched lengths or zero-magnitude
inputs. -/
theorem cosine_similarity_properties :
    (∀ a b : List ℝ, cosine_similarity a b = cosine_similarity b a) ∧
      (∀ a : List ℝ, (∃ x ∈ a, x ≠ 0) → cosine_similarity a a = 1) ∧
      (∀ a b : List ℝ, a.length ≠ b.length → cosine_similarity a b = 0) ∧
      (∀ a b : List ℝ, magnitude a = 0 ∨ magnitude b = 0 → cosine_similarity a b = 0) := by
  refine ⟨?_, ?_, ?_, ?_⟩
  · intro a b
    by_cases h : a.length = b.length
    · simp only [cosine_similarity, h, ne_eq, not_true_eq_false, if_false]
      by_cases hm : magnitude a = 0 ∨ magnitude b = 0
      · rw [if_pos hm, if_pos hm.symm]
      · rw [if_neg hm, if_neg (fun hh => hm hh.symm)]
        rw [zipWith_mul_comm, mul_comm (magnitude a) (magnitude b)]
    · simp only [cosine_similarity]
      rw [if_pos h, if_pos (Ne.symm h)]
  · intro a h
    have hm : 0 < magnitude a := magnitude_pos a h
    simp only [cosine_similarity]
    rw [if_neg (by simp)]
    rw [if_neg (by rintro (h0 | h0) <;> exact absurd h0 (ne_of_gt hm))]
    rw [zipWith_mul_self]
    unfold magnitude
    rw [Real.mul_self_sqrt (sum_squares_nonneg a)]
    exact div_self (ne_of_gt (sum_squares_pos a h))
  · intro a b h
    simp [cosine_similarity, h]
  · intro a b h
    by_cases hl : a.length = b.length
    · simp [cosine_similarity, hl, h]
    · simp [cosine_similarity, hl]

/-- C6 witness on concrete vectors: a nonzero self-pairing scores 1 and a
length mismatch scores 0. -/
theorem cosine_similarity_witness :
    cosine_similarity [1] [1] = 1 ∧ cosine_similarity [1] [1, 2] = 0 :=
  ⟨cosine_similarity_properties.2.1 [1] ⟨1, by simp, one_ne_zero⟩,
    cosine_similarity_properties.2.2.1 [1] [1, 2] (by simp)⟩

/-! ### Clustering -/

/-- Characterization of the `best_score / best_k` loop: either nothing in
the candidate list strictly beat the incumbent (and every successful score
in the list is at most the incumbent score), or the result is a candidate
whose own score was obtained successfully, strictly beats the incumbent,
and dominates every successful score in the list. -/
theorem bestLoop_spec (f : ℕ → Option ℚ) (l : List ℕ) :
    ∀ (bs : ℚ) (bk : ℕ),
      (bestLoop f l (bs, bk) = (bs, bk) ∧ ∀ k ∈ l, ∀ s, f k = some s → s ≤ bs) ∨
        ((bestLoop f l (bs, bk)).2 ∈ l ∧
          f (bestLoop f l (bs, bk)).2 = some (bestLoop f l (bs, bk)).1 ∧
          bs < (bestLoop f l (bs, bk)).1 ∧
          ∀ k ∈ l, ∀ s, f k = some s → s ≤ (bestLoop f l (bs, bk)).1) := by
  induction l with
  | nil => exact fun bs bk => Or.inl ⟨rfl, by simp⟩
  | cons k rest ih =>
    intro bs bk
    rcases hf : f k with _ | s
    · have hstep : bestLoop f (k :: rest) (bs, bk) = bestLoop f rest (bs, bk) := by
        simp [bestLoop, hf]
      rcases ih bs bk with ⟨h1, h2⟩ | ⟨h1, h2, h3, h4⟩
      · refine Or.inl ⟨hstep.trans h1, ?_⟩
        intro k1 hk1 s1 hs1
        rcases List.mem_cons.mp hk1 with rfl | hk1
        · rw [hf] at hs1; exact absurd hs1 (by simp)
        · exact h2 k1 hk1 s1 hs1
      · rw [hstep]
        refine Or.inr ⟨List.mem_cons_of_mem _ h1, h2, h3, ?_⟩
        intro k1 hk1 s1 hs1
        rcases List.mem_cons.mp hk1 with rfl | hk1
        · rw [hf] at hs1; exact absurd hs1 (by simp)
        · exact h4 k1 hk1 s1 hs1
    · by_cases hgt : s > bs
      · have hstep : bestLoop f (k :: rest) (bs, bk) = bestLoop f rest (s, k) := by
          simp [bestLoop, hf, hgt]
        rw [hstep]
        rcases ih s k with ⟨h1, h2⟩ | ⟨h1, h2, h3, h4⟩
        · refine Or.inr ⟨?_, ?_, ?_, ?_⟩
          · rw [h1]; exact List.mem_cons_self _ _
          · rw [h1]; exact hf
          · rw [h1]; exact hgt
          · intro k1 hk1 s1 hs1
            rw [h1]
            rcases List.mem_cons.mp hk1 with rfl | hk1
            · rw [hf] at hs1
              simp only [Option.some.injEq] at hs1
              simp [hs1]
            · exact h2 k1 hk1 s1 hs1
        · refine Or.inr ⟨List.mem_cons_of_mem _ h1, h2, lt_trans hgt h3, ?_⟩
          intro k1 hk1 s1 hs1
          rcases List.mem_cons.mp hk1 with rfl | hk1
          · rw [hf] at hs1
            simp only [Option.some.injEq] at hs1
            rw [← hs1]; exact le_of_lt h3
          · exact h4 k1 hk1 s1 hs1
      · have hstep : bestLoop f (k :: rest) (bs, bk) = bestLoop f rest (bs, bk) := by
          simp [bestLoop, hf, hgt]
        have hle : s ≤ bs := not_lt.mp hgt
        rcases ih bs bk with ⟨h1, h2⟩ | ⟨h1, h2, h3, h4⟩
        · refine Or.inl ⟨hstep.trans h1, ?_⟩
          intro k1 hk1 s1 hs1
          rcases List.mem_cons.mp hk1 with rfl | hk1
          · rw [hf] at hs1
            simp only [Option.some.injEq] at hs1
            rw [← hs1]; exact hle
          · exact h2 k1 hk1 s1 hs1
        · rw [hstep]
          refine Or.inr ⟨List.mem_cons_of_mem _ h1, h2, h3, ?_⟩
          intro k1 hk1 s1 hs1
          rcases List.mem_cons.mp hk1 with rfl | hk1
          · rw [hf] at hs1
            simp only [Option.some.injEq] at hs1
            rw [← hs1]; exact le_of_lt (lt_of_le_of_lt hle h3)
          · exact h4 k1 hk1 s1 hs1

/-- On a singleton candidate list starting from incumbent `k`, the loop
always returns `k`. -/
theorem bestLoop_snd_single (f : ℕ → Option ℚ) (k : ℕ) (bs : ℚ) :
    (bestLoop f [k] (bs, k)).2 = k := by
  rcases hf : f k with _ | s
  · simp [bestLoop, hf]
  · by_cases hgt : s > bs <;> simp [bestLoop, hf, hgt]

/-- The lower end of the candidate range never exceeds the upper end, so
the dead `max_k < min_k` branch of `_find_optimal_clusters` is never
taken and the search list is `candidateKs`. -/
theorem find_optimal_clusters_eq_bestLoop (cfg : ClustererConfig) (env : ClusterEnv)
    (embs : List (List ℚ)) :
    find_optimal_clusters cfg env embs =
      (bestLoop (silhouetteFor env embs)
        (candidateKs cfg embs.length)
        (-1, min cfg.min_clusters
          (min cfg.max_clusters (embs.length / cfg.min_ideas_per_cluster)))).2 := by
  unfold find_optimal_clusters candidateKs
  rw [if_neg (not_lt.mpr (min_le_right _ _))]

/-- C7: clustering the empty input returns `([], 0)`; under the default
configuration shape (`min_clusters ≤ max_clusters`) the automatically
searched candidate list is exactly the claimed range
`[min(minClusters, maxFeasibleK), min(maxClusters, maxFeasibleK)]` with
`maxFeasibleK = n / minIdeasPerCluster`; the selected `k` is a candidate
maximizing the silhouette score among the candidates that score
successfully (failed candidates are skipped), or the smallest feasible
`k` when every candidate fails; and on `n = 5` with the default
configuration the degenerate range yields `k = 1` without error. -/
theorem cluster_selection_properties :
    (∀ (cfg : ClustererConfig) (env : ClusterEnv) (nc : Option ℕ),
        cluster_ideas cfg env [] nc = ([], 0)) ∧
      (∀ (cfg : ClustererConfig) (n : ℕ), cfg.min_clusters ≤ cfg.max_clusters →
        candidateKs cfg n =
          List.range' (min cfg.min_clusters (n / cfg.min_ideas_per_cluster))
            (min cfg.max_clusters (n / cfg.min_ideas_per_cluster) + 1 -
              min cfg.min_clusters (n / cfg.min_ideas_per_cluster))) ∧
      (∀ (cfg : ClustererConfig) (env : ClusterEnv) (embs : List (List ℚ)),
        (∀ k ∈ candidateKs cfg embs.length, ∀ s, silhouetteFor env embs k = some s → -1 < s) →
        (find_optimal_clusters cfg env embs ∈ candidateKs cfg embs.length ∧
          ∃ sb, silhouetteFor env embs (find_optimal_clusters cfg env embs) = some sb ∧
            ∀ k ∈ candidateKs cfg embs.length, ∀ s,
              silhouetteFor env embs k = some s → s ≤ sb) ∨
        ((∀ k ∈ candidateKs cfg embs.length, silhouetteFor env embs k = none) ∧
          find_optimal_clusters cfg env embs =
            min cfg.min_clusters
              (min cfg.max_clusters (embs.length / cfg.min_ideas_per_cluster)))) ∧
      (∀ (env : ClusterEnv) (embs : List (List ℚ)), embs.length = 5 →
        (cluster_ideas {} env embs none).2 = 1) := by
  refine ⟨?_, ?_, ?_, ?_⟩
  · intro cfg env nc
    simp [cluster_ideas]
  · intro cfg n h
    unfold candidateKs
    have hmin : min cfg.min_clusters (min cfg.max_clusters (n / cfg.min_ideas_per_cluster)) =
        min cfg.min_clusters (n / cfg.min_ideas_per_cluster) := by
      rw [← min_assoc, min_eq_left h]
    simp only [hmin]
  · intro cfg env embs hpos
    rw [find_optimal_clusters_eq_bestLoop]
    rcases bestLoop_spec (silhouetteFor env embs) (candidateKs cfg embs.length) (-1)
        (min cfg.min_clusters (min cfg.max_clusters (embs.length / cfg.min_ideas_per_cluster)))
      with ⟨h1, h2⟩ | ⟨h1, h2, h3, h4⟩
    · refine Or.inr ⟨?_, by rw [h1]⟩
      intro k hk
      rcases hsil : silhouetteFor env embs k with _ | s
      · rfl
      · have hle := h2 k hk s hsil
        have hgt := hpos k hk s hsil
        linarith
    · exact Or.inl ⟨h1, ⟨_, h2, h4⟩⟩
  · intro env embs h5
    have hne : embs ≠ [] := by
      intro hnil
      rw [hnil] at h5
      simp at h5
    have hfo : find_optimal_clusters {} env embs = 1 := by
      rw [find_optimal_clusters_eq_bestLoop]
      unfold candidateKs
      rw [h5]
      norm_num
      exact bestLoop_snd_single _ 1 (-1)
    unfold cluster_ideas
    rw [if_neg hne]
    simp only [Option.getD, hfo]
    rcases hk : env.kmeans_fit_predict 1 embs with _ | labels <;> simp [hk]

/-- C7 witness: the empty input, the claimed default-configuration range
at `n = 5` (which is the degenerate singleton `[1]`), and the degenerate
five-idea run, all under an environment whose external calls raise. -/
theorem cluster_selection_properties_witness :
    cluster_ideas {} errorClusterEnv [] (some 3) = ([], 0) ∧
      candidateKs ({} : ClustererConfig) 5 = [1] ∧
      (cluster_ideas {} errorClusterEnv [[1], [1], [1], [1], [1]] none).2 = 1 := by
  refine ⟨cluster_selection_properties.1 {} errorClusterEnv (some 3), ?_, ?_⟩
  · have h := cluster_selection_properties.2.1 {} 5 (by norm_num)
    rw [h]
    rfl
  · exact cluster_selection_properties.2.2.2 errorClusterEnv _ (by simp)

/-- C10: whenever the input is non-empty and the KMeans fit for the chosen
cluster count raises, `cluster_ideas` swallows the exception and returns
every idea in a single cluster labeled 0 with reported count 1; moreover,
under the default configuration, automatic selection on fewer than
`min_ideas_per_cluster` ideas indeed chooses `k = 0` (for which
scikit-learn's KMeans raises). -/
theorem cluster_kmeans_failure_fallback :
    (∀ (cfg : ClustererConfig) (env : ClusterEnv) (embs : List (List ℚ)) (nc : Option ℕ),
        embs ≠ [] →
        env.kmeans_fit_predict (nc.getD (find_optimal_clusters cfg env embs)) embs = .error () →
        cluster_ideas cfg env embs nc = (List.replicate embs.length 0, 1)) ∧
      (∀ (env : ClusterEnv) (embs : List (List ℚ)), embs ≠ [] → embs.length < 3 →
        find_optimal_clusters {} env embs = 0) := by
  constructor
  · intro cfg env embs nc hne herr
    unfold cluster_ideas
    rw [if_neg hne]
    simp [herr]
  · intro env embs _ h3
    have hdiv : embs.length / 3 = 0 := Nat.div_eq_of_lt h3
    rw [find_optimal_clusters_eq_bestLoop]
    unfold candidateKs
    simp only [hdiv]
    norm_num
    exact bestLoop_snd_single _ 0 (-1)

/-- C10 witness: two ideas under the default configuration select `k = 0`,
the KMeans fit raises there, and the run returns `([0, 0], 1)`. -/
theorem cluster_kmeans_failure_fallback_witness :
    cluster_ideas {} zeroKFailsEnv [[1], [2]] none = ([0, 0], 1) := by
  have h0 : find_optimal_clusters {} zeroKFailsEnv [[1], [2]] = 0 :=
    cluster_kmeans_failure_fallback.2 zeroKFailsEnv [[1], [2]] (by simp) (by simp)
  have h := cluster_kmeans_failure_fallback.1 {} zeroKFailsEnv [[1], [2]] none (by simp) ?_
  · simpa using h
  · rw [Option.getD_none, h0]
    rfl

/-! ### Similarity search -/

/-- A non-excluded id differs from any non-empty exclusion id. -/
theorem excludedBy_false_ne (ex : Option String) (hex : ex ≠ some "")
    (id1 : String) (h : excludedBy ex id1 = false) : some id1 ≠ ex := by
  rcases ex with _ | e
  · simp
  · intro heq
    have hid : id1 = e := by simpa using heq
    subst hid
    simp only [excludedBy] at h
    simp at h
    exact hex (by rw [h])

/-- The indexed-path collection loop never grows past `limit` once the
accumulator is below it. -/
theorem aiCollect_length (threshold : ℝ) (limit : ℕ) (ex : Option String) :
    ∀ (rs : List SearchResult) (acc : List SimilarIdea), acc.length < limit →
      (aiCollect threshold limit ex rs acc).length ≤ limit := by
  intro rs
  induction rs with
  | nil =>
    intro acc h
    simpa [aiCollect] using le_of_lt h
  | cons r rest ih =>
    intro acc h
    simp only [aiCollect]
    split_ifs with h1 h2 h3
    · exact ih acc h
    · exact ih acc h
    · simpa using Nat.succ_le_of_lt h
    · exact ih _ (by simpa using Nat.lt_of_not_le h3)

/-- Everything the indexed-path loop adds comes from the result stream,
passed the threshold test and passed the exclusion test. -/
theorem aiCollect_mem (threshold : ℝ) (limit : ℕ) (ex : Option String) :
    ∀ (rs : List SearchResult) (acc : List SimilarIdea) (m : SimilarIdea),
      m ∈ aiCollect threshold limit ex rs acc →
      m ∈ acc ∨ ∃ r ∈ rs, m = ⟨r.id, r.title, r.summary, r.score, r.status⟩ ∧
        threshold ≤ r.score ∧ excludedBy ex r.id = false := by
  intro rs
  induction rs with
  | nil =>
    intro acc m hm
    exact Or.inl (by simpa [aiCollect] using hm)
  | cons r rest ih =>
    intro acc m hm
    simp only [aiCollect] at hm
    split_ifs at hm with h1 h2 h3
    · rcases ih acc m hm with h | ⟨r1, hr1, he⟩
      · exact Or.inl h
      · exact Or.inr ⟨r1, List.mem_cons_of_mem _ hr1, he⟩
    · rcases ih acc m hm with h | ⟨r1, hr1, he⟩
      · exact Or.inl h
      · exact Or.inr ⟨r1, List.mem_cons_of_mem _ hr1, he⟩
    · rcases List.mem_append.mp hm with h | h
      · exact Or.inl h
      · have hmx : m = ⟨r.id, r.title, r.summary, r.score, r.status⟩ := by simpa using h
        exact Or.inr ⟨r, List.mem_cons_self _ _, hmx, not_lt.mp h1, by simpa using h2⟩
    · rcases ih _ m hm with h | ⟨r1, hr1, he⟩
      · rcases List.mem_append.mp h with h | h
        · exact Or.inl h
        · have hmx : m = ⟨r.id, r.title, r.summary, r.score, r.status⟩ := by simpa using h
          exact Or.inr ⟨r, List.mem_cons_self _ _, hmx, not_lt.mp h1, by simpa using h2⟩
      · exact Or.inr ⟨r1, List.mem_cons_of_mem _ hr1, he⟩

/-- The indexed-path loop preserves descending order when the backend
stream is served in descending score order. -/
theorem aiCollect_sorted (threshold : ℝ) (limit : ℕ) (ex : Option String) :
    ∀ (rs : List SearchResult) (acc : List SimilarIdea),
      List.Pairwise (fun a b => b.similarity_score ≤ a.similarity_score) acc →
      List.Pairwise (fun a b => b.score ≤ a.score) rs →
      (∀ a ∈ acc, ∀ r ∈ rs, r.score ≤ a.similarity_score) →
      List.Pairwise (fun a b => b.similarity_score ≤ a.similarity_score)
        (aiCollect threshold limit ex rs acc) := by
  intro rs
  induction rs with
  | nil =>
    intro acc ha _ _
    simpa [aiCollect] using ha
  | cons r rest ih =>
    intro acc ha hrs hcross
    have hrhead : ∀ r1 ∈ rest, r1.score ≤ r.score := (List.pairwise_cons.mp hrs).1
    have hrest := (List.pairwise_cons.mp hrs).2
    have hacc1 : List.Pairwise (fun a b => b.similarity_score ≤ a.similarity_score)
        (acc ++ [⟨r.id, r.title, r.summary, r.score, r.status⟩]) := by
      apply List.pairwise_append.mpr
      refine ⟨ha, by simp, ?_⟩
      intro a haq b hb
      simp only [List.mem_singleton] at hb
      subst hb
      exact hcross a haq r (List.mem_cons_self _ _)
    simp only [aiCollect]
    split_ifs with h1 h2 h3
    · exact ih acc ha hrest (fun a haq r1 hr1 => hcross a haq r1 (List.mem_cons_of_mem _ hr1))
    · exact ih acc ha hrest (fun a haq r1 hr1 => hcross a haq r1 (List.mem_cons_of_mem _ hr1))
    · exact hacc1
    · apply ih _ hacc1 hrest
      intro a haq r1 hr1
      rcases List.mem_append.mp haq with h | h
      · exact le_trans (hrhead r1 hr1) (hcross a h r (List.mem_cons_self _ _))
      · have hax : a = ⟨r.id, r.title, r.summary, r.score, r.status⟩ := by simpa using h
        rw [hax]
        exact hrhead r1 hr1

/-- Everything the fallback filter keeps passed the threshold and
exclusion tests. -/
theorem cosmosCollect_mem (qe : List ℝ) (threshold : ℝ) (ex : Option String) :
    ∀ (items : List CosmosItem) (m : SimilarIdea),
      m ∈ cosmosCollect qe threshold ex items →
      threshold ≤ m.similarity_score ∧ excludedBy ex m.idea_id = false := by
  intro items
  induction items with
  | nil =>
    intro m hm
    simp [cosmosCollect] at hm
  | cons it rest ih =>
    intro m hm
    simp only [cosmosCollect] at hm
    split_ifs at hm with h1 h2 h3
    · exact ih m hm
    · exact ih m hm
    · exact ih m hm
    · rcases List.mem_cons.mp hm with rfl | hm
      · exact ⟨not_lt.mp h3, by simpa using h1⟩
      · exact ih m hm

/-- Descending insertion permutes the inserted element onto the list. -/
theorem insertDesc_perm (x : SimilarIdea) (l : List SimilarIdea) :
    (insertDesc x l).Perm (x :: l) := by
  induction l with
  | nil => simp [insertDesc]
  | cons y ys ih =>
    simp only [insertDesc]
    split_ifs with h
    · exact List.Perm.refl _
    · exact (ih.cons y).trans (List.Perm.swap x y ys)

/-- The descending sort is a permutation of its input. -/
theorem sortDesc_perm (l : List SimilarIdea) : (sortDesc l).Perm l := by
  induction l with
  | nil => simp [sortDesc]
  | cons x xs ih => exact (insertDesc_perm x (sortDesc xs)).trans (ih.cons x)

/-- Descending insertion preserves descending order. -/
theorem insertDesc_sorted (x : SimilarIdea) :
    ∀ (l : List SimilarIdea),
      List.Pairwise (fun a b => b.similarity_score ≤ a.similarity_score) l →
      List.Pairwise (fun a b => b.similarity_score ≤ a.similarity_score) (insertDesc x l) := by
  intro l
  induction l with
  | nil => intro _; simp [insertDesc]
  | cons y ys ih =>
    intro h
    obtain ⟨hy, hys⟩ := List.pairwise_cons.mp h
    simp only [insertDesc]
    split_ifs with hlt
    · refine List.pairwise_cons.mpr ⟨?_, h⟩
      intro b hb
      rcases List.mem_cons.mp hb with rfl | hb
      · exact le_of_lt hlt
      · exact le_trans (hy b hb) (le_of_lt hlt)
    · refine List.pairwise_cons.mpr ⟨?_, ih hys⟩
      intro b hb
      have hb1 := (insertDesc_perm x ys).mem_iff.mp hb
      rcases List.mem_cons.mp hb1 with rfl | hb1
      · exact not_lt.mp hlt
      · exact hy b hb1

/-- The descending sort produces a descending list. -/
theorem sortDesc_sorted (l : List SimilarIdea) :
    List.Pairwise (fun a b => b.similarity_score ≤ a.similarity_score) (sortDesc l) := by
  induction l with
  | nil => simp [sortDesc]
  | cons x xs ih => exact insertDesc_sorted x (sortDesc xs) ih

/-- The fallback search honors the limit, the exclusion, the threshold and
the descending order, for every container state. -/
theorem cosmos_search_props (container : Option (Except Unit (List CosmosItem)))
    (qe : List ℝ) (threshold : ℝ) (limit : ℕ) (ex : Option String)
    (hex : ex ≠ some "") :
    (search_similar_with_cosmos container qe threshold limit ex).length ≤ limit ∧
      (∀ m ∈ search_similar_with_cosmos container qe threshold limit ex,
        some m.idea_id ≠ ex) ∧
      (∀ m ∈ search_similar_with_cosmos container qe threshold limit ex,
        threshold ≤ m.similarity_score) ∧
      List.Pairwise (fun a b => b.similarity_score ≤ a.similarity_score)
        (search_similar_with_cosmos container qe threshold limit ex) := by
  rcases container with _ | c
  · simp [search_similar_with_cosmos]
  rcases c with e | items
  · simp [search_similar_with_cosmos]
  · have hmem : ∀ m ∈ search_similar_with_cosmos (some (.ok items)) qe threshold limit ex,
        threshold ≤ m.similarity_score ∧ excludedBy ex m.idea_id = false := by
      intro m hm
      simp only [search_similar_with_cosmos] at hm
      have hm1 : m ∈ sortDesc (cosmosCollect qe threshold ex items) :=
        List.take_subset _ _ hm
      have hm2 : m ∈ cosmosCollect qe threshold ex items :=
        (sortDesc_perm _).mem_iff.mp hm1
      exact cosmosCollect_mem qe threshold ex items m hm2
    refine ⟨?_, ?_, ?_, ?_⟩
    · simp only [search_similar_with_cosmos, List.length_take]
      exact min_le_left _ _
    · intro m hm
      exact excludedBy_false_ne ex hex m.idea_id (hmem m hm).2
    · intro m hm
      exact (hmem m hm).1
    · simp only [search_similar_with_cosmos]
      exact List.Pairwise.sublist (List.take_sublist _ _) (sortDesc_sorted _)

/-- C3 counterexample at `limit = 0`: the indexed path appends a result
and only then tests `len >= limit`, so a zero limit still returns one
result — more than `limit`. -/
theorem find_similar_limit_zero_excess :
    ¬ (find_similar_ideas oneHitSearchEnv ['q'] 0 0 none).similar_ideas.length ≤ 0 := by
  have h1 : pyStrip ['q'] = ['q'] := by decide
  have hval : find_similar_ideas oneHitSearchEnv ['q'] 0 0 none =
      ⟨[⟨"a", "t", "s", 1, "submitted"⟩], 0⟩ := by
    simp only [find_similar_ideas, h1, oneHitSearchEnv, search_similar_with_ai_search,
      aiCollect, excludedBy]
    norm_num
  rw [hval]
  simp

/-- C3 (amended): for every query, threshold, positive `limit`, and
`exclude_id` that is not the empty string, and whenever the indexed
backend (when consulted successfully) serves its stream in descending
score order, `find_similar_ideas` returns at most `limit` results, never
one whose id equals `exclude_id`, never one scoring below `threshold`,
in descending score order, and returns `[]` on a blank query.  (With
`limit = 0` the indexed path can return one excess result, and an
empty-string `exclude_id` is ignored by Python truthiness.) -/
theorem find_similar_contract (env : IdeasServiceEnv) (text : List Char)
    (threshold : ℝ) (limit : ℕ) (exclude_id : Option String)
    (hlim : 1 ≤ limit) (hex : exclude_id ≠ some "")
    (hsorted : ∀ rs, env.search_client = some (.ok rs) →
      List.Pairwise (fun a b => b.score ≤ a.score) rs) :
    (find_similar_ideas env text threshold limit exclude_id).similar_ideas.length ≤ limit ∧
      (∀ m ∈ (find_similar_ideas env text threshold limit exclude_id).similar_ideas,
        some m.idea_id ≠ exclude_id) ∧
      (∀ m ∈ (find_similar_ideas env text threshold limit exclude_id).similar_ideas,
        threshold ≤ m.similarity_score) ∧
      List.Pairwise (fun a b => b.similarity_score ≤ a.similarity_score)
        (find_similar_ideas env text threshold limit exclude_id).similar_ideas ∧
      (pyStrip text = [] →
        (find_similar_ideas env text threshold limit exclude_id).similar_ideas = []) := by
  by_cases ht : pyStrip text = []
  · have hres : find_similar_ideas env text threshold limit exclude_id = ⟨[], threshold⟩ := by
      simp [find_similar_ideas, ht]
    rw [hres]
    exact ⟨by simp, by simp, by simp, by simp, fun _ => rfl⟩
  by_cases hqe : env.embed text = []
  · have hres : find_similar_ideas env text threshold limit exclude_id = ⟨[], threshold⟩ := by
      simp [find_similar_ideas, ht, hqe]
    rw [hres]
    exact ⟨by simp, by simp, by simp, by simp, fun _ => rfl⟩
  have hcosmos := cosmos_search_props env.ideas_container (env.embed text) threshold limit
    exclude_id hex
  rcases hsc : env.search_client with _ | outcome
  · have hres : find_similar_ideas env text threshold limit exclude_id =
        ⟨search_similar_with_cosmos env.ideas_container (env.embed text) threshold limit
          exclude_id, threshold⟩ := by
      simp [find_similar_ideas, ht, hqe, hsc]
    rw [hres]
    exact ⟨hcosmos.1, hcosmos.2.1, hcosmos.2.2.1, hcosmos.2.2.2, fun hh => absurd hh ht⟩
  rcases outcome with e | rs
  · have hres : find_similar_ideas env text threshold limit exclude_id =
        ⟨search_similar_with_cosmos env.ideas_container (env.embed text) threshold limit
          exclude_id, threshold⟩ := by
      simp [find_similar_ideas, ht, hqe, hsc, search_similar_with_ai_search]
    rw [hres]
    exact ⟨hcosmos.1, hcosmos.2.1, hcosmos.2.2.1, hcosmos.2.2.2, fun hh => absurd hh ht⟩
  · have hres : find_similar_ideas env text threshold limit exclude_id =
        ⟨aiCollect threshold limit exclude_id rs [], threshold⟩ := by
      simp [find_similar_ideas, ht, hqe, hsc, search_similar_with_ai_search]
    have hrs := hsorted rs hsc
    rw [hres]
    refine ⟨?_, ?_, ?_, ?_, fun hh => absurd hh ht⟩
    · exact aiCollect_length threshold limit exclude_id rs []
        (lt_of_lt_of_le Nat.zero_lt_one hlim)
    · intro m hm
      rcases aiCollect_mem threshold limit exclude_id rs [] m hm with h | ⟨r, _, hmx, _, hskip⟩
      · simp at h
      · rw [hmx]
        exact excludedBy_false_ne exclude_id hex r.id hskip
    · intro m hm
      rcases aiCollect_mem threshold limit exclude_id rs [] m hm with h | ⟨r, _, hmx, hth, _⟩
      · simp at h
      · rw [hmx]
        exact hth
    · exact aiCollect_sorted threshold limit exclude_id rs [] (by simp) hrs (by simp)

/-- C3 witness at a concrete environment, query, and parameters. -/
theorem find_similar_contract_witness :
    (find_similar_ideas emptyServiceEnv ['q'] (1/2) 5 none).similar_ideas.length ≤ 5 ∧
      ∀ m ∈ (find_similar_ideas emptyServiceEnv ['q'] (1/2) 5 none).similar_ideas,
        (1/2 : ℝ) ≤ m.similarity_score := by
  have h := find_similar_contract emptyServiceEnv ['q'] (1/2) 5 none (by norm_num)
    (by simp) ?_
  · exact ⟨h.1, h.2.2.1⟩
  · intro rs hrs
    simp [emptyServiceEnv] at hrs

/-- C4: whenever the indexed backend is absent or raises, the service
falls back to the brute-force Cosmos scan — the response is exactly the
brute-force result at the same parameters, and no backend failure
escapes. -/
theorem index_failure_falls_back (env : IdeasServiceEnv) (text : List Char)
    (threshold : ℝ) (limit : ℕ) (exclude_id : Option String)
    (ht : pyStrip text ≠ []) (hqe : env.embed text ≠ [])
    (hb : env.search_client = none ∨ env.search_client = some (.error ())) :
    find_similar_ideas env text threshold limit exclude_id =
      ⟨search_similar_with_cosmos env.ideas_container (env.embed text) threshold limit
        exclude_id, threshold⟩ := by
  rcases hb with hb | hb <;>
    simp [find_similar_ideas, ht, hqe, hb, search_similar_with_ai_search]

/-- C4 witness: a raising indexed backend with no container present falls
back and yields the (empty) brute-force result. -/
theorem index_failure_falls_back_witness :
    find_similar_ideas raisingSearchEnv ['x'] (7/10) 5 none = ⟨[], 7/10⟩ := by
  have h := index_failure_falls_back raisingSearchEnv ['x'] (7/10) 5 none
    (by decide) (by simp [raisingSearchEnv]) (Or.inr rfl)
  simpa [raisingSearchEnv, search_similar_with_cosmos] using h

end IdeasHub
